import Mathlib

/-!
Verification of the notebook
`notebooks/8 - Implementing models using the low-level backend.ipynb`.

The notebook hand-implements logistic regression on top of the Keras
low-level tensor backend: it builds a symbolic graph out of placeholders
(`x`, `y`), shared variables (`W`, `b`) and backend operations
(`K.dot`, `+`, `K.sigmoid`, `K.binary_crossentropy`, `K.mean`,
`K.gradients`), compiles the graph plus an update list into callable
functions (`K.function`), and trains with plain gradient descent.

We embed the notebook's graph as a deep AST (`TExpr`), mirror the
backend's documented semantics (shape validation, elementwise and
dot-product evaluation, post-call parameter updates) as an evaluator over
real-valued matrices returning `Except` on shape errors, and verify the
claims about the notebook against this model.  The external backend's
automatic differentiation is kept abstract as a gradient oracle: the
notebook delegates gradient computation wholesale, and no claim concerns
the numeric value of a gradient.
-/

namespace KerasTutorial

/-- A real matrix with explicit (runtime) dimensions, mirroring a numpy
2-d array: entries outside the declared bounds are irrelevant. -/
structure MatD where
  rows : ℕ
  cols : ℕ
  entry : ℕ → ℕ → ℝ

/-- A rank-1 real array with explicit length, mirroring a numpy 1-d array
such as the bias `b` of shape `(1,)`. -/
structure VecD where
  len : ℕ
  entry : ℕ → ℝ

/-- The values held by the two shared variables of the model: the weight
matrix `W` and the bias vector `b` (`K.variable` storage). -/
structure ModelState where
  Wv : MatD
  bv : VecD

/-- The notebook's model state is well-shaped when `W` has shape `(5, 1)`
and `b` has length 1, as created by
`W = K.variable(0.01*np.random.randn(5, 1))` and
`b = K.variable(np.zeros(1))`. -/
def stWellShaped (st : ModelState) : Prop :=
  st.Wv.rows = 5 ∧ st.Wv.cols = 1 ∧ st.bv.len = 1

instance (st : ModelState) : Decidable (stWellShaped st) := by
  unfold stWellShaped; infer_instance

/-- Symbolic backend graph nodes, one constructor per backend primitive
used by the notebook.  `phX`/`phY` are the two placeholders, `varW`/`varB`
the two shared variables; every other constructor is a single call into
the external framework (`K.dot`, `+`, `-`, scalar `*`, `K.sigmoid`,
`K.binary_crossentropy`, `K.mean`, `K.gradients`). -/
inductive TExpr where
  | phX : TExpr
  | phY : TExpr
  | varW : TExpr
  | varB : TExpr
  | dot : TExpr → TExpr → TExpr
  | add : TExpr → TExpr → TExpr
  | sub : TExpr → TExpr → TExpr
  | smul : ℝ → TExpr → TExpr
  | sigmoid : TExpr → TExpr
  | bce : TExpr → TExpr → TExpr
  | mean : TExpr → TExpr
  | grad : TExpr → TExpr → TExpr

/-- `x = K.placeholder(shape=(None, 5))`. -/
def x : TExpr := .phX

/-- `y = K.placeholder(shape=(None, 1))`. -/
def y : TExpr := .phY

/-- The symbolic weight variable `W` (shape `(5, 1)`). -/
def W : TExpr := .varW

/-- The symbolic bias variable `b` (shape `(1,)`). -/
def b : TExpr := .varB

/-- `y_hat = K.sigmoid(K.dot(x, W) + b)`. -/
def y_hat : TExpr := .sigmoid (.add (.dot x W) b)

/-- `loss = K.mean(K.binary_crossentropy(y_hat, y))`. -/
def loss : TExpr := .mean (.bce y_hat y)

/-- `params = [W, b]`. -/
def params : List TExpr := [W, b]

/-- `gradients = K.gradients(loss, params)`: one symbolic gradient node
per parameter. -/
def gradients : List TExpr := params.map (fun p => .grad loss p)

/-- `lr = 0.1`. -/
def lr : ℝ := 0.1

/-- The update list built by the notebook loop
`for p, g in zip([W, b], gradients): updates.append((p, p - lr*g))`. -/
def updates : List (TExpr × TExpr) :=
  (List.zip [W, b] gradients).foldl
    (fun acc pg => acc ++ [(pg.1, .sub pg.1 (.smul lr pg.2))]) []

/-! ### Symbolic shapes

Static shapes as the backend tracks them: a matrix shape whose row count
may be the unspecified batch dimension (`none`, printed `None` by Keras),
a rank-1 shape, or a scalar. -/

/-- A static backend shape. -/
inductive KShape where
  | mat : Option ℕ → ℕ → KShape
  | vec : ℕ → KShape
  | scalar : KShape
deriving DecidableEq

/-- Unify two (possibly unspecified) batch dimensions. -/
def unifyRows : Option ℕ → Option ℕ → Option (Option ℕ)
  | none, r => some r
  | some a, none => some (some a)
  | some a, some c => if a = c then some (some a) else none

/-- Static shape inference over the graph, `none` on a static shape
mismatch.  A rank-1 operand of `+` broadcasts over the rows of a matrix
(numpy/Theano broadcasting, as used by `K.dot(x, W) + b`). -/
def shapeOf : TExpr → Option KShape
  | .phX => some (.mat none 5)
  | .phY => some (.mat none 1)
  | .varW => some (.mat (some 5) 1)
  | .varB => some (.vec 1)
  | .dot a c =>
    match shapeOf a, shapeOf c with
    | some (.mat r k), some (.mat (some k2) n) =>
      if k = k2 then some (.mat r n) else none
    | _, _ => none
  | .add a c =>
    match shapeOf a, shapeOf c with
    | some (.mat r n), some (.vec k) =>
      if k = n ∨ k = 1 then some (.mat r n) else none
    | some (.mat r n), some (.mat r2 n2) =>
      if n = n2 then (unifyRows r r2).map (fun u => .mat u n) else none
    | _, _ => none
  | .sub a c =>
    match shapeOf a, shapeOf c with
    | some (.mat r n), some (.mat r2 n2) =>
      if n = n2 then (unifyRows r r2).map (fun u => .mat u n) else none
    | some (.vec k), some (.vec k2) => if k = k2 then some (.vec k) else none
    | _, _ => none
  | .smul _ a => shapeOf a
  | .sigmoid a => shapeOf a
  | .bce p t =>
    match shapeOf p, shapeOf t with
    | some (.mat r n), some (.mat r2 n2) =>
      if n = n2 then (unifyRows r r2).map (fun u => .mat u n) else none
    | _, _ => none
  | .mean a => (shapeOf a).map (fun _ => .scalar)
  | .grad f p =>
    match shapeOf f, shapeOf p with
    | some .scalar, some s => some s
    | _, _ => none

/-! ### Numeric values and the gradient oracle -/

/-- A runtime value of the backend: a matrix, a rank-1 array, or a
scalar. -/
inductive KVal where
  | mat : MatD → KVal
  | vec : VecD → KVal
  | scl : ℝ → KVal

/-- The numeric bindings of the two placeholders during one call of a
compiled function (`none` = not supplied in this call). -/
structure Env where
  inX : Option MatD
  inY : Option MatD

/-- The external framework's automatic differentiation, kept abstract:
given the current variable values and placeholder bindings it produces
the numeric gradient of the loss with respect to `W` and to `b`.  The
notebook delegates gradient computation wholesale to `K.gradients`, so no
claim depends on the gradient's numeric value. -/
structure GradOracle where
  gW : ModelState → Env → MatD
  gB : ModelState → Env → VecD

/-- A gradient oracle is shape-correct when each gradient has the shape
of its parameter, as automatic differentiation guarantees. -/
def oracleGood (G : GradOracle) : Prop :=
  ∀ st env, (G.gW st env).rows = 5 ∧ (G.gW st env).cols = 1 ∧
    (G.gB st env).len = 1

/-! ### Backend operation semantics -/

/-- Matrix product (`K.dot`). -/
noncomputable def matMulD (A B : MatD) : MatD :=
  ⟨A.rows, B.cols, fun i j => ∑ k ∈ Finset.range A.cols, A.entry i k * B.entry k j⟩

/-- Elementwise combination of two same-shaped matrices. -/
def matZip (f : ℝ → ℝ → ℝ) (A B : MatD) : MatD :=
  ⟨A.rows, A.cols, fun i j => f (A.entry i j) (B.entry i j)⟩

/-- Elementwise map over a matrix. -/
def matMap (f : ℝ → ℝ) (A : MatD) : MatD :=
  ⟨A.rows, A.cols, fun i j => f (A.entry i j)⟩

/-- Elementwise combination of two same-length rank-1 arrays. -/
def vecZip (f : ℝ → ℝ → ℝ) (u v : VecD) : VecD :=
  ⟨u.len, fun i => f (u.entry i) (v.entry i)⟩

/-- Elementwise map over a rank-1 array. -/
def vecMap (f : ℝ → ℝ) (v : VecD) : VecD :=
  ⟨v.len, fun i => f (v.entry i)⟩

/-- Add a rank-1 array to each row of a matrix (numpy-style
broadcasting; a length-1 array broadcasts over the columns as well). -/
def matAddBroadcast (A : MatD) (v : VecD) : MatD :=
  ⟨A.rows, A.cols, fun i j => A.entry i j + v.entry (if v.len = 1 then 0 else j)⟩

/-- The logistic function `1 / (1 + e^(-t))` (`K.sigmoid`). -/
noncomputable def sigmoidR (t : ℝ) : ℝ := 1 / (1 + Real.exp (-t))

/-- Pointwise binary cross-entropy of a predicted probability `p` against
a target `t` (`K.binary_crossentropy`). -/
noncomputable def bceR (p t : ℝ) : ℝ :=
  -(t * Real.log p + (1 - t) * Real.log (1 - p))

/-- Mean of all entries of a matrix (`K.mean`). -/
noncomputable def matMean (A : MatD) : ℝ :=
  (∑ i ∈ Finset.range A.rows, ∑ j ∈ Finset.range A.cols, A.entry i j) /
    (A.rows * A.cols)

/-- Mean of all entries of a rank-1 array. -/
noncomputable def vecMean (v : VecD) : ℝ :=
  (∑ i ∈ Finset.range v.len, v.entry i) / v.len

/-- Evaluate a graph node at variable values `st` and placeholder
bindings `env`.  Shape validation mirrors the backend: any mismatch
(inner dimensions of `dot`, elementwise shapes, broadcasting) surfaces as
an `Except.error`, which every caller propagates. -/
noncomputable def evalExpr (G : GradOracle) (st : ModelState) (env : Env) :
    TExpr → Except String KVal
  | .phX =>
    match env.inX with
    | some A => .ok (.mat A)
    | none => .error "x: missing input"
  | .phY =>
    match env.inY with
    | some A => .ok (.mat A)
    | none => .error "y: missing input"
  | .varW => .ok (.mat st.Wv)
  | .varB => .ok (.vec st.bv)
  | .dot a c =>
    match evalExpr G st env a, evalExpr G st env c with
    | .ok (.mat A), .ok (.mat B) =>
      if A.cols = B.rows then .ok (.mat (matMulD A B))
      else .error "dot: shape mismatch"
    | .error e, _ => .error e
    | _, .error e => .error e
    | _, _ => .error "dot: operands must be matrices"
  | .add a c =>
    match evalExpr G st env a, evalExpr G st env c with
    | .ok (.mat A), .ok (.mat B) =>
      if A.rows = B.rows ∧ A.cols = B.cols then .ok (.mat (matZip (· + ·) A B))
      else .error "add: shape mismatch"
    | .ok (.mat A), .ok (.vec v) =>
      if v.len = A.cols ∨ v.len = 1 then .ok (.mat (matAddBroadcast A v))
      else .error "add: broadcast mismatch"
    | .error e, _ => .error e
    | _, .error e => .error e
    | _, _ => .error "add: unsupported operands"
  | .sub a c =>
    match evalExpr G st env a, evalExpr G st env c with
    | .ok (.mat A), .ok (.mat B) =>
      if A.rows = B.rows ∧ A.cols = B.cols then .ok (.mat (matZip (· - ·) A B))
      else .error "sub: shape mismatch"
    | .ok (.vec u), .ok (.vec v) =>
      if u.len = v.len then .ok (.vec (vecZip (· - ·) u v))
      else .error "sub: length mismatch"
    | .error e, _ => .error e
    | _, .error e => .error e
    | _, _ => .error "sub: unsupported operands"
  | .smul c a =>
    match evalExpr G st env a with
    | .ok (.mat A) => .ok (.mat (matMap (fun t => c * t) A))
    | .ok (.vec v) => .ok (.vec (vecMap (fun t => c * t) v))
    | .ok (.scl r) => .ok (.scl (c * r))
    | .error e => .error e
  | .sigmoid a =>
    match evalExpr G st env a with
    | .ok (.mat A) => .ok (.mat (matMap sigmoidR A))
    | .ok (.vec v) => .ok (.vec (vecMap sigmoidR v))
    | .ok (.scl r) => .ok (.scl (sigmoidR r))
    | .error e => .error e
  | .bce p t =>
    match evalExpr G st env p, evalExpr G st env t with
    | .ok (.mat P), .ok (.mat T) =>
      if P.rows = T.rows ∧ P.cols = T.cols then .ok (.mat (matZip bceR P T))
      else .error "binary_crossentropy: shape mismatch"
    | .error e, _ => .error e
    | _, .error e => .error e
    | _, _ => .error "binary_crossentropy: operands must be matrices"
  | .mean a =>
    match evalExpr G st env a with
    | .ok (.mat A) => .ok (.scl (matMean A))
    | .ok (.vec v) => .ok (.scl (vecMean v))
    | .ok (.scl r) => .ok (.scl r)
    | .error e => .error e
  | .grad _ p =>
    match p with
    | .varW => .ok (.mat (G.gW st env))
    | .varB => .ok (.vec (G.gB st env))
    | _ => .error "grad: not a trainable variable"

/-! ### Compiled functions (`K.function`) -/

/-- A compiled backend function: a list of placeholder inputs, an output
graph, and a list of `(variable, new value graph)` updates applied after
each call. -/
structure KFunction where
  inputs : List TExpr
  output : TExpr
  upd : List (TExpr × TExpr)

/-- Bind one numeric argument to one placeholder, validating the
argument's shape against the placeholder's declared shape. -/
def bindInput (e : Env) (ph : TExpr) (A : MatD) : Except String Env :=
  match ph with
  | .phX => if A.cols = 5 then .ok ⟨some A, e.inY⟩ else .error "x: wrong shape"
  | .phY => if A.cols = 1 then .ok ⟨e.inX, some A⟩ else .error "y: wrong shape"
  | _ => .error "input is not a placeholder"

/-- Bind a list of arguments to the declared placeholder inputs. -/
def mkEnv : Env → List TExpr → List MatD → Except String Env
  | e, [], [] => .ok e
  | e, ph :: ps, A :: rest =>
    match bindInput e ph A with
    | .ok e2 => mkEnv e2 ps rest
    | .error err => .error err
  | _, _, _ => .error "wrong number of inputs"

/-- Evaluate every update's right-hand side at the pre-call state. -/
noncomputable def evalUpdates (G : GradOracle) (st : ModelState) (env : Env) :
    List (TExpr × TExpr) → Except String (List (TExpr × KVal))
  | [] => .ok []
  | (p, e) :: rest =>
    match evalExpr G st env e with
    | .error err => .error err
    | .ok v =>
      match evalUpdates G st env rest with
      | .error err => .error err
      | .ok vs => .ok ((p, v) :: vs)

/-- Store one evaluated update into the shared variables. -/
def applyUpd (st : ModelState) : TExpr × KVal → Except String ModelState
  | (.varW, .mat A) => .ok ⟨A, st.bv⟩
  | (.varB, .vec v) => .ok ⟨st.Wv, v⟩
  | _ => .error "invalid update target"

/-- Store all evaluated updates. -/
def applyUpdates : ModelState → List (TExpr × KVal) → Except String ModelState
  | st, [] => .ok st
  | st, u :: rest =>
    match applyUpd st u with
    | .error err => .error err
    | .ok st2 => applyUpdates st2 rest

/-- One call of a compiled function: validate and bind the inputs,
evaluate the output graph at the pre-call variable values, then evaluate
the update list (also at the pre-call values) and store the results, so
that updates take effect only after the evaluation. -/
noncomputable def callFn (G : GradOracle) (f : KFunction) (st : ModelState)
    (args : List MatD) : Except String (KVal × ModelState) :=
  match mkEnv ⟨none, none⟩ f.inputs args with
  | .error e => .error e
  | .ok env =>
    match evalExpr G st env f.output with
    | .error e => .error e
    | .ok out =>
      match evalUpdates G st env f.upd with
      | .error e => .error e
      | .ok vs =>
        match applyUpdates st vs with
        | .error e => .error e
        | .ok st2 => .ok (out, st2)

/-- `train_fn = K.function([x, y], loss, updates=updates)`. -/
noncomputable def train_fn : KFunction := ⟨[x, y], loss, updates⟩

/-- `predict = K.function([x], y_hat)`: compiled from `y_hat` with no
update list. -/
def predict : KFunction := ⟨[x], y_hat, []⟩

/-- The notebook's training loop
`for iteration in range(n): iter_loss = train_fn([X_batch, y_batch])`:
repeated synchronous calls on the same batch, collecting each returned
loss, with no error handling of its own — a framework error stops the
loop and is propagated unchanged. -/
noncomputable def runTraining (G : GradOracle) (X Y : MatD) :
    ModelState → ℕ → Except String (List KVal × ModelState)
  | st, 0 => .ok ([], st)
  | st, n + 1 =>
    match callFn G train_fn st [X, Y] with
    | .error e => .error e
    | .ok (v, st2) =>
      match runTraining G X Y st2 n with
      | .error e => .error e
      | .ok (vs, stf) => .ok (v :: vs, stf)

/-! ### Closed-form denotations (the spec's formulas) -/

/-- The spec's formula for the model output: the elementwise logistic
probability `1 / (1 + e^(-(x·W + b)))` for each example of the batch. -/
noncomputable def logisticOut (st : ModelState) (X : MatD) : MatD :=
  ⟨X.rows, 1, fun i j =>
    1 / (1 + Real.exp (-((∑ k ∈ Finset.range 5, X.entry i k * st.Wv.entry k j) +
      st.bv.entry 0)))⟩

/-- The spec's formula for the loss: the mean of the elementwise binary
cross-entropy between the predicted probabilities and the targets,
evaluated at the given variable values. -/
noncomputable def lossAt (st : ModelState) (X Y : MatD) : ℝ :=
  matMean (matZip bceR (logisticOut st X) Y)

/-- The spec's formula for one gradient-descent step: each parameter `p`
is replaced by `p - lr * g` with `g` the framework-computed gradient. -/
noncomputable def gdStep (G : GradOracle) (st : ModelState) (env : Env) :
    ModelState :=
  ⟨⟨st.Wv.rows, st.Wv.cols, fun i j => st.Wv.entry i j - lr * (G.gW st env).entry i j⟩,
   ⟨st.bv.len, fun i => st.bv.entry i - lr * (G.gB st env).entry i⟩⟩

/-! ### Accuracy (`(y_batch == (predictions > 0.5).astype('int')).mean()*100`) -/

/-- numpy's `(p > 0.5).astype('int')`: the predicted class. -/
noncomputable def threshold (p : ℝ) : ℝ := if 0.5 < p then 1 else 0

/-- The notebook's accuracy expression: the mean of the elementwise
agreement indicator between labels and thresholded predictions, times
100. -/
noncomputable def accuracy (yb pred : MatD) : ℝ :=
  ((∑ i ∈ Finset.range yb.rows, ∑ j ∈ Finset.range yb.cols,
      if yb.entry i j = threshold (pred.entry i j) then (1 : ℝ) else 0) /
    (yb.rows * yb.cols)) * 100

/-- The positions at which the thresholded prediction agrees with the
label. -/
noncomputable def agreeCount (yb pred : MatD) : ℕ :=
  ((Finset.range yb.rows ×ˢ Finset.range yb.cols).filter
    (fun q => yb.entry q.1 q.2 = threshold (pred.entry q.1 q.2))).card

/-- The shapes of the generated dataset
`X_batch = 2*np.random.randn(16, 5)` and
`y_batch = np.random.randint(0, 2, size=(16,1))`. -/
def batchWellShaped (X Y : MatD) : Prop :=
  X.rows = 16 ∧ X.cols = 5 ∧ Y.rows = 16 ∧ Y.cols = 1

instance (X Y : MatD) : Decidable (batchWellShaped X Y) := by
  unfold batchWellShaped; infer_instance

/-- A numeric array matches a placeholder's declared static shape when
every specified dimension agrees (`none` rows accept any batch size). -/
def matchesPH : KShape → MatD → Prop
  | .mat none c, A => A.cols = c
  | .mat (some r) c, A => A.rows = r ∧ A.cols = c
  | _, _ => False

/-! ### Concrete instances for witnesses -/

/-- The all-zero matrix of a given shape. -/
def zMat (r c : ℕ) : MatD := ⟨r, c, fun _ _ => 0⟩

/-- The all-zero rank-1 array of a given length. -/
def zVec (n : ℕ) : VecD := ⟨n, fun _ => 0⟩

/-- A concrete well-shaped model state. -/
def st0 : ModelState := ⟨zMat 5 1, zVec 1⟩

/-- A concrete shape-correct gradient oracle. -/
def G0 : GradOracle := ⟨fun _ _ => zMat 5 1, fun _ _ => zVec 1⟩

/-! ## Helper lemmas -/

theorem G0_good : oracleGood G0 := fun _ _ => ⟨rfl, rfl, rfl⟩

/-- Evaluating the `y_hat` graph at any bound input batch of width 5
yields exactly the elementwise logistic probabilities. -/
theorem evalExpr_yhat (G : GradOracle) (st : ModelState) (env : Env) (X : MatD)
    (henv : env.inX = some X) (hX : X.cols = 5) (hst : stWellShaped st) :
    evalExpr G st env y_hat = .ok (.mat (logisticOut st X)) := by
  obtain ⟨h5, h1, hb1⟩ := hst
  simp only [y_hat, x, W, b, evalExpr, henv, h5, hX, if_pos rfl, if_true]
  simp only [matMulD, matAddBroadcast, matMap, hb1, h1, or_true, if_pos, reduceIte]
  simp only [logisticOut, sigmoidR, Except.ok.injEq, KVal.mat.injEq, MatD.mk.injEq, hX]

/-- Evaluating the `loss` graph yields exactly the mean binary
cross-entropy of the logistic outputs against the targets. -/
theorem evalExpr_loss (G : GradOracle) (st : ModelState) (env : Env) (X Y : MatD)
    (henvX : env.inX = some X) (henvY : env.inY = some Y) (hX : X.cols = 5)
    (hYc : Y.cols = 1) (hYr : Y.rows = X.rows) (hst : stWellShaped st) :
    evalExpr G st env loss = .ok (.scl (lossAt st X Y)) := by
  obtain ⟨h5, h1, hb1⟩ := hst
  simp only [loss, y_hat, y, x, W, b, evalExpr, henvX, henvY, h5, hX, if_pos rfl, if_true]
  simp only [matMulD, matAddBroadcast, matMap, hb1, h1, or_true, reduceIte]
  simp only [matZip, hYr, hYc, and_self, reduceIte]
  simp only [lossAt, logisticOut, matZip, matMean, sigmoidR, hX, hb1, matMap,
    Except.ok.injEq, KVal.scl.injEq]

/-- Evaluating the notebook's update list at the pre-call state produces
exactly the gradient-descent-updated values of `W` and `b`. -/
theorem evalUpdates_train (G : GradOracle) (st : ModelState) (env : Env)
    (hst : stWellShaped st) (hG : oracleGood G) :
    evalUpdates G st env updates =
      .ok [(W, .mat (gdStep G st env).Wv), (b, .vec (gdStep G st env).bv)] := by
  obtain ⟨h5, h1, hb1⟩ := hst
  obtain ⟨hgr, hgc, hgl⟩ := hG st env
  rw [show updates = [(W, .sub W (.smul lr (.grad loss W))),
      (b, .sub b (.smul lr (.grad loss b)))] from rfl]
  simp only [evalUpdates, evalExpr, W, b, matMap, vecMap, h5, h1, hb1, hgr, hgc, hgl,
    and_self, reduceIte, matZip, vecZip, gdStep]

/-- A call of the compiled training function returns the loss at the
pre-call variable values and steps the state by gradient descent. -/
theorem callFn_train (G : GradOracle) (st : ModelState) (X Y : MatD)
    (hst : stWellShaped st) (hG : oracleGood G) (hX : X.cols = 5)
    (hYc : Y.cols = 1) (hYr : Y.rows = X.rows) :
    callFn G train_fn st [X, Y] =
      .ok (.scl (lossAt st X Y), gdStep G st ⟨some X, some Y⟩) := by
  have hmk : mkEnv ⟨none, none⟩ train_fn.inputs [X, Y] = .ok ⟨some X, some Y⟩ := by
    simp [train_fn, mkEnv, bindInput, x, y, hX, hYc]
  simp only [callFn, hmk]
  rw [show train_fn.output = loss from rfl,
    evalExpr_loss G st ⟨some X, some Y⟩ X Y rfl rfl hX hYc hYr hst,
    show train_fn.upd = updates from rfl,
    evalUpdates_train G st ⟨some X, some Y⟩ hst hG]
  simp only [applyUpdates, applyUpd, W, b]

/-- A call of the compiled prediction function returns the logistic
probabilities and leaves the variable values untouched. -/
theorem callFn_predict (G : GradOracle) (st : ModelState) (X : MatD)
    (hst : stWellShaped st) (hX : X.cols = 5) :
    callFn G predict st [X] = .ok (.mat (logisticOut st X), st) := by
  have hmk : mkEnv ⟨none, none⟩ predict.inputs [X] = .ok ⟨some X, none⟩ := by
    simp [predict, mkEnv, bindInput, x, hX]
  simp only [callFn, hmk]
  rw [show predict.output = y_hat from rfl,
    evalExpr_yhat G st ⟨some X, none⟩ X rfl hX hst]
  simp only [predict, evalUpdates, applyUpdates]

/-- Every error surfaced by the training loop is verbatim an error of a
compiled-function call: the loop neither catches nor rewraps. -/
theorem runTraining_error_src (G : GradOracle) (X Y : MatD) :
    ∀ (st : ModelState) (n : ℕ) (e : String), runTraining G X Y st n = .error e →
      ∃ st2, callFn G train_fn st2 [X, Y] = .error e := by
  intro st n
  induction n generalizing st with
  | zero =>
    intro e h
    simp [runTraining] at h
  | succ n ih =>
    intro e h
    rw [runTraining] at h
    cases hc : callFn G train_fn st [X, Y] with
    | error e2 =>
      rw [hc] at h
      simp only [Except.error.injEq] at h
      subst h
      exact ⟨st, hc⟩
    | ok p =>
      obtain ⟨v, st2⟩ := p
      rw [hc] at h
      dsimp only at h
      cases hr : runTraining G X Y st2 n with
      | error e2 =>
        rw [hr] at h
        simp only [Except.error.injEq] at h
        subst h
        exact ih st2 e2 hr
      | ok q =>
        rw [hr] at h
        simp at h

/-! ## Claim theorems -/

/-- C1: the model's predicted probability is logistic regression — for
every input batch `X` bound to the placeholder `x`, the `y_hat` graph
(built as `K.sigmoid(K.dot(x, W) + b)` over the `(5, 1)` weight variable
and the length-1 bias variable) evaluates to the elementwise
probabilities `1 / (1 + e^(-(x·W + b)))` recorded by `logisticOut`. -/
theorem c1_model_output_is_logistic (G : GradOracle) (st : ModelState)
    (eY : Option MatD) (X : MatD) (hX : X.cols = 5) (hst : stWellShaped st) :
    evalExpr G st ⟨some X, eY⟩ y_hat = .ok (.mat (logisticOut st X)) ∧
    y_hat = TExpr.sigmoid (.add (.dot x W) b) :=
  ⟨evalExpr_yhat G st ⟨some X, eY⟩ X rfl hX hst, rfl⟩

theorem c1_witness :
    evalExpr G0 st0 ⟨some (zMat 3 5), none⟩ y_hat =
      .ok (.mat (logisticOut st0 (zMat 3 5))) ∧
    y_hat = TExpr.sigmoid (.add (.dot x W) b) :=
  c1_model_output_is_logistic G0 st0 none (zMat 3 5) rfl (by decide)

/-- C2: training is plain gradient descent — the update list pairs each
trainable parameter `p` of `params = [W, b]` with exactly
`p - lr * grad(loss, p)`, where the learning rate `lr` is the constant
`0.1`; no other update rule appears. -/
theorem c2_plain_gradient_descent :
    updates = (params.zip gradients).map
      (fun pg => (pg.1, .sub pg.1 (.smul lr pg.2))) ∧
    updates = [(W, .sub W (.smul lr (.grad loss W))),
               (b, .sub b (.smul lr (.grad loss b)))] ∧
    lr = (0.1 : ℝ) :=
  ⟨rfl, rfl, rfl⟩

/-- C3: `train_fn` is the compilation of the loss graph together with the
update list; each call on a numeric batch returns the loss evaluated at
the pre-call values of `W` and `b`, and its post-call effect replaces the
state by the gradient-descent step `gdStep` (updates take effect after
the evaluation, once per call). -/
theorem c3_train_fn_call (G : GradOracle) (st : ModelState) (X Y : MatD)
    (hst : stWellShaped st) (hG : oracleGood G) (hX : X.cols = 5)
    (hYc : Y.cols = 1) (hYr : Y.rows = X.rows) :
    train_fn = KFunction.mk [x, y] loss updates ∧
    callFn G train_fn st [X, Y] =
      .ok (.scl (lossAt st X Y), gdStep G st ⟨some X, some Y⟩) :=
  ⟨rfl, callFn_train G st X Y hst hG hX hYc hYr⟩

theorem c3_witness :
    train_fn = KFunction.mk [x, y] loss updates ∧
    callFn G0 train_fn st0 [zMat 16 5, zMat 16 1] =
      .ok (.scl (lossAt st0 (zMat 16 5) (zMat 16 1)),
        gdStep G0 st0 ⟨some (zMat 16 5), some (zMat 16 1)⟩) :=
  c3_train_fn_call G0 st0 (zMat 16 5) (zMat 16 1) (by decide) G0_good rfl rfl rfl

/-- C4: no core numerical algorithm is implemented from scratch — the
sigmoid is a single `sigmoid` graph node, the loss a single `mean` of a
single `binary_crossentropy` node, and the gradients a single `grad` node
per parameter, all delegated to the framework's primitives. -/
theorem c4_framework_delegation :
    y_hat = TExpr.sigmoid (.add (.dot x W) b) ∧
    loss = TExpr.mean (.bce y_hat y) ∧
    gradients = params.map (fun p => TExpr.grad loss p) ∧
    gradients = [TExpr.grad loss W, TExpr.grad loss b] :=
  ⟨rfl, rfl, rfl, rfl⟩

/-- C5: the loss is a single scalar graph node — it is the mean of the
elementwise binary cross-entropy between `y_hat` and the target
placeholder `y`, its static shape is scalar, and for every batch size the
compiled training function returns one scalar value. -/
theorem c5_loss_is_scalar_mean :
    loss = TExpr.mean (.bce y_hat y) ∧ shapeOf loss = some .scalar ∧
    ∀ (G : GradOracle) (st : ModelState) (X Y : MatD), stWellShaped st →
      oracleGood G → X.cols = 5 → Y.cols = 1 → Y.rows = X.rows →
      ∃ st2, callFn G train_fn st [X, Y] = .ok (.scl (lossAt st X Y), st2) :=
  ⟨rfl, by decide, fun G st X Y h1 h2 h3 h4 h5 =>
    ⟨gdStep G st ⟨some X, some Y⟩, callFn_train G st X Y h1 h2 h3 h4 h5⟩⟩

theorem c5_witness :
    ∃ st2, callFn G0 train_fn st0 [zMat 8 5, zMat 8 1] =
      .ok (.scl (lossAt st0 (zMat 8 5) (zMat 8 1)), st2) :=
  c5_loss_is_scalar_mean.2.2 G0 st0 (zMat 8 5) (zMat 8 1) (by decide) G0_good
    rfl rfl rfl

/-- C6: the notebook performs no error handling of its own — every error
the training loop surfaces is verbatim a failure raised by a framework
call (`train_fn` on the batch), propagated unchanged; nothing is caught,
classified, or re-raised. -/
theorem c6_no_error_handling (G : GradOracle) (X Y : MatD) (st : ModelState)
    (n : ℕ) (e : String) (h : runTraining G X Y st n = .error e) :
    ∃ st2, callFn G train_fn st2 [X, Y] = .error e :=
  runTraining_error_src G X Y st n e h

theorem c6_witness :
    ∃ st2, callFn G0 train_fn st2 [zMat 16 4, zMat 16 1] =
      .error "x: wrong shape" :=
  c6_no_error_handling G0 (zMat 16 4) (zMat 16 1) st0 1 "x: wrong shape" rfl

/-- C7: the declared shapes are mutually consistent — `y_hat` has static
shape `(None, 1)` matching the target placeholder `y`, the loss is
scalar, every update value has the shape of its parameter, the generated
dataset (`(16, 5)` inputs, `(16, 1)` labels) matches the placeholders,
and both the training call and the prediction call on that data succeed
without a shape-mismatch error. -/
theorem c7_shape_consistency (G : GradOracle) (st : ModelState) (X Y : MatD)
    (hst : stWellShaped st) (hG : oracleGood G) (hb : batchWellShaped X Y) :
    shapeOf y_hat = some (.mat none 1) ∧ shapeOf y = some (.mat none 1) ∧
    shapeOf loss = some .scalar ∧
    (∀ pu ∈ updates, shapeOf pu.2 = shapeOf pu.1) ∧
    matchesPH (.mat none 5) X ∧ matchesPH (.mat none 1) Y ∧
    (∃ r, callFn G train_fn st [X, Y] = .ok r) ∧
    (∃ r2, callFn G predict st [X] = .ok r2) := by
  obtain ⟨hxr, hxc, hyr, hyc⟩ := hb
  exact ⟨by decide, by decide, by decide, by decide, hxc, hyc,
    ⟨_, callFn_train G st X Y hst hG hxc hyc (by rw [hyr, hxr])⟩,
    ⟨_, callFn_predict G st X hst hxc⟩⟩

theorem c7_witness :
    shapeOf y_hat = some (.mat none 1) ∧ shapeOf y = some (.mat none 1) ∧
    shapeOf loss = some .scalar ∧
    (∀ pu ∈ updates, shapeOf pu.2 = shapeOf pu.1) ∧
    matchesPH (.mat none 5) (zMat 16 5) ∧ matchesPH (.mat none 1) (zMat 16 1) ∧
    (∃ r, callFn G0 train_fn st0 [zMat 16 5, zMat 16 1] = .ok r) ∧
    (∃ r2, callFn G0 predict st0 [zMat 16 5] = .ok r2) :=
  c7_shape_consistency G0 st0 (zMat 16 5) (zMat 16 1) (by decide) G0_good
    (by decide)

/-- C8: the prediction function has no side effects on the model state —
`predict` is compiled from `y_hat` with an empty update list, a call
returns the logistic probabilities with the state unchanged, and a second
call on the same input (from the post-call state) returns the same
result. -/
theorem c8_predict_no_side_effects (G : GradOracle) (st : ModelState)
    (X : MatD) (hst : stWellShaped st) (hX : X.cols = 5) :
    predict.upd = [] ∧
    callFn G predict st [X] = .ok (.mat (logisticOut st X), st) ∧
    (callFn G predict st [X]).bind (fun p => callFn G predict p.2 [X]) =
      callFn G predict st [X] := by
  have h := callFn_predict G st X hst hX
  refine ⟨rfl, h, ?_⟩
  rw [h]
  exact h

theorem c8_witness :
    predict.upd = [] ∧
    callFn G0 predict st0 [zMat 16 5] =
      .ok (.mat (logisticOut st0 (zMat 16 5)), st0) ∧
    (callFn G0 predict st0 [zMat 16 5]).bind
        (fun p => callFn G0 predict p.2 [zMat 16 5]) =
      callFn G0 predict st0 [zMat 16 5] :=
  c8_predict_no_side_effects G0 st0 (zMat 16 5) (by decide) rfl

/-- C9: the accuracy computation is well-bounded — for label and
prediction arrays of the same shape, the notebook's expression
`(y_batch == (predictions > 0.5).astype(int)).mean() * 100` lies between
0 and 100 and equals 100 times the fraction of positions where the
thresholded prediction agrees with the label. -/
theorem c9_accuracy_well_bounded (yb pred : MatD) (_hr : pred.rows = yb.rows)
    (_hcl : pred.cols = yb.cols) :
    0 ≤ accuracy yb pred ∧ accuracy yb pred ≤ 100 ∧
      accuracy yb pred =
        100 * ((agreeCount yb pred : ℝ) / ((yb.rows : ℝ) * (yb.cols : ℝ))) := by
  have hS : (∑ i ∈ Finset.range yb.rows, ∑ j ∈ Finset.range yb.cols,
      if yb.entry i j = threshold (pred.entry i j) then (1 : ℝ) else 0) =
      (agreeCount yb pred : ℝ) := by
    rw [← Finset.sum_product', Finset.sum_boole]
    simp [agreeCount]
  have hcard : agreeCount yb pred ≤ yb.rows * yb.cols := by
    have h2 := Finset.card_filter_le ((Finset.range yb.rows) ×ˢ (Finset.range yb.cols))
      (fun q => yb.entry q.1 q.2 = threshold (pred.entry q.1 q.2))
    simpa [agreeCount, Finset.card_product] using h2
  have hacc : accuracy yb pred =
      ((agreeCount yb pred : ℝ) / ((yb.rows : ℝ) * (yb.cols : ℝ))) * 100 := by
    simp only [accuracy]
    rw [hS]
  refine ⟨?_, ?_, ?_⟩
  · rw [hacc]; positivity
  · rw [hacc]
    have h1 : (agreeCount yb pred : ℝ) / ((yb.rows : ℝ) * (yb.cols : ℝ)) ≤ 1 := by
      apply div_le_one_of_le₀
      · exact_mod_cast hcard
      · positivity
    nlinarith [h1]
  · rw [hacc]; ring

theorem c9_witness :
    0 ≤ accuracy (zMat 2 1) (zMat 2 1) ∧
    accuracy (zMat 2 1) (zMat 2 1) ≤ 100 ∧
    accuracy (zMat 2 1) (zMat 2 1) =
      100 * ((agreeCount (zMat 2 1) (zMat 2 1) : ℝ) / (((zMat 2 1).rows : ℝ) *
        ((zMat 2 1).cols : ℝ))) :=
  c9_accuracy_well_bounded (zMat 2 1) (zMat 2 1) rfl rfl

end KerasTutorial
